import Mathlib

/-!
Verification of the portfolio-analysis pipeline in `upside.py`.

Modelling conventions:
* Python floats are modelled exactly as rationals (`ℚ`); the claims under
  scrutiny are stated in exact arithmetic.
* Python strings are modelled as Lean `String`s, with all operations
  (strip, replace, split) re-implemented over `List Char` so that every
  definition evaluates inside the kernel.
* Fallible Python code (functions that may raise) is modelled with
  `Option`/`Except`.
-/

namespace Upside

/-! ### Python string primitives (modelled over `List Char`) -/

/-- Python `str.strip()` on the left: drop leading whitespace. -/
def dropWs (cs : List Char) : List Char := cs.dropWhile Char.isWhitespace

/-- Python `str.strip()`: drop leading and trailing whitespace. -/
def pyStrip (cs : List Char) : List Char := (dropWs ((dropWs cs.reverse).reverse))

/-- If `pat` is a prefix of `cs`, return the remainder after it. -/
def dropPat : List Char → List Char → Option (List Char)
  | [], rest => some rest
  | _ :: _, [] => none
  | p :: ps, c :: cs => if p = c then dropPat ps cs else none

/-- Fuel-driven core of Python `str.replace`: replaces each non-overlapping,
leftmost occurrence of `pat` by `repl`.  The fuel bounds the number of steps;
`pat` is treated as unmatchable when empty (Python's empty-pattern behaviour
is not needed: every pattern used in the program is non-empty). -/
def replaceAux (pat repl : List Char) : Nat → List Char → List Char
  | 0, cs => cs
  | _ + 1, [] => []
  | n + 1, c :: rest =>
    match dropPat pat (c :: rest) with
    | some remainder =>
      if pat.isEmpty then c :: replaceAux pat repl n rest
      else repl ++ replaceAux pat repl n remainder
    | none => c :: replaceAux pat repl n rest

/-- Python `s.replace(pat, repl)` over char lists. -/
def pyReplace (cs pat repl : List Char) : List Char :=
  replaceAux pat repl (cs.length + 1) cs

/-! ### Python `float(str)` parsing

Models the grammar accepted by CPython's `float` constructor on the inputs
this program can produce: optional surrounding whitespace, an optional sign,
a decimal significand with an optional fractional part, and an optional
decimal exponent.  (`inf`/`nan` spellings and digit underscores are not
modelled; no input reaching `float` in this program uses them.) -/

/-- Split off a maximal run of leading decimal digits. -/
def takeDigits (cs : List Char) : List Char × List Char :=
  (cs.takeWhile Char.isDigit, cs.dropWhile Char.isDigit)

/-- Numeric value of a digit string (most significant first). -/
def digitsToNat (ds : List Char) : Nat :=
  ds.foldl (fun acc c => acc * 10 + (c.toNat - 48)) 0

/-- Parse the optional exponent part (`e`/`E`, optional sign, digits);
returns the signed exponent, or `none` when present but malformed.
The caller requires the whole string to be consumed. -/
def parseExp : List Char → Option Int
  | [] => some 0
  | e :: rest =>
    if e = 'e' ∨ e = 'E' then
      let (sgn, rest') : Int × List Char :=
        match rest with
        | '+' :: r => (1, r)
        | '-' :: r => (-1, r)
        | r => (1, r)
      let (ds, rest'') := takeDigits rest'
      if ds.isEmpty ∨ ¬ rest''.isEmpty then none
      else some (sgn * (digitsToNat ds : Int))
    else none

/-- Scale a rational by `10 ^ e` for a signed exponent `e`. -/
def scalePow10 (q : ℚ) (e : Int) : ℚ :=
  if 0 ≤ e then q * (10 : ℚ) ^ e.toNat else q / (10 : ℚ) ^ (-e).toNat

/-- Model of Python `float(s)` for a string `s`: `some` of the exact value
on success, `none` when `float` would raise `ValueError`. -/
def pyFloat (s : String) : Option ℚ :=
  let cs := pyStrip s.data
  let (sgn, cs₁) : ℚ × List Char :=
    match cs with
    | '+' :: r => (1, r)
    | '-' :: r => (-1, r)
    | r => (1, r)
  let (ip, cs₂) := takeDigits cs₁
  let (fp, rest) :=
    match cs₂ with
    | '.' :: r => takeDigits r
    | r => ([], r)
  if ip.isEmpty ∧ fp.isEmpty then none
  else
    match parseExp rest with
    | none => none
    | some e =>
      let mant : ℚ := (digitsToNat ip : ℚ) + (digitsToNat fp : ℚ) / (10 : ℚ) ^ fp.length
      some (sgn * scalePow10 mant e)

/-! ### `clean_value` -/

/-- A Python value reaching `clean_value`: either a string or a number
(int/float, both modelled as `ℚ`). -/
inductive PyVal where
  | str (s : String)
  | num (q : ℚ)
  deriving DecidableEq

/-- The cleaned form of a monetary string: drop `R$`, strip whitespace,
remove thousands-separator periods, turn the decimal comma into a period.
Mirrors the successive `replace`/`strip` calls of `clean_value`. -/
def cleanedForm (s : String) : String :=
  let t₁ := pyReplace s.data ['R', '$'] []
  let t₂ := pyStrip t₁
  let t₃ := pyReplace t₂ ['.'] []
  let t₄ := pyReplace t₃ [','] ['.']
  String.mk t₄

/-- `clean_value`: converts a monetary text value (e.g. `'R$ 1.275,34'`)
to a number; non-strings convert directly; unparseable strings give `0.0`. -/
def clean_value : PyVal → ℚ
  | .str s =>
    match pyFloat (cleanedForm s) with
    | some q => q
    | none => 0
  | .num q => q

/-! ### The line pattern of `process_portfolio_image`

Python regex: `([A-Z0-9]+)\s+.*\s+(R\$\s*[\d,\.]+)\s+(R\$\s*[\d,\.]+)`,
applied with `re.search`.  The matcher below implements exactly this pattern
with Python's backtracking preference order: positions are tried left to
right, and each greedy quantifier prefers the longest take, earlier
quantifiers taking precedence.  (`.` may match any character here: the lines
fed to the pattern come from `split('\n')` and contain no newline.) -/

/-- Character class `[A-Z0-9]`. -/
def isAZ09 (c : Char) : Bool := c.isUpper || c.isDigit

/-- Character class `[\d,\.]`. -/
def isMoneyChar (c : Char) : Bool := c.isDigit || c = ',' || c = '.'

/-- All splits of `cs` into a run of characters satisfying `p` (of length at
least `lo`) and a remainder, longest run first — the order a greedy
quantifier explores them in. -/
def greedyTakes (p : Char → Bool) (lo : Nat) (cs : List Char) :
    List (List Char × List Char) :=
  let m := (cs.takeWhile p).length
  (List.range (m + 1 - lo)).map (fun i => (cs.take (m - i), cs.drop (m - i)))

/-- Candidate matches of the group `(R\$\s*[\d,\.]+)` at the head of the
input, in backtracking preference order; each candidate pairs the captured
text with the remainder. -/
def moneyCands (cs : List Char) : List (List Char × List Char) :=
  match cs with
  | 'R' :: '$' :: rest =>
    (greedyTakes Char.isWhitespace 0 rest).flatMap (fun sp =>
      (greedyTakes isMoneyChar 1 sp.2).map (fun ds =>
        ('R' :: '$' :: (sp.1 ++ ds.1), ds.2)))
  | _ => []

/-- Try to match the whole pattern anchored at the head of `cs`, returning
the three captured groups (ticker, quote text, position text). -/
def matchAt (cs : List Char) : Option (List Char × List Char × List Char) :=
  (greedyTakes isAZ09 1 cs).findSome? (fun g1 =>
    (greedyTakes Char.isWhitespace 1 g1.2).findSome? (fun w1 =>
      (greedyTakes (fun _ => true) 0 w1.2).findSome? (fun mid =>
        (greedyTakes Char.isWhitespace 1 mid.2).findSome? (fun w2 =>
          (moneyCands w2.2).findSome? (fun g2 =>
            (greedyTakes Char.isWhitespace 1 g2.2).findSome? (fun w3 =>
              (moneyCands w3.2).findSome? (fun g3 =>
                some (g1.1, g2.1, g3.1))))))))

/-- `re.search`: try each start position from left to right. -/
def searchFrom : List Char → Option (List Char × List Char × List Char)
  | [] => none
  | c :: cs =>
    match matchAt (c :: cs) with
    | some g => some g
    | none => searchFrom cs

/-! ### `process_portfolio_image` (the text-to-rows part) -/

/-- The fixed denylist of ticker tokens rejected by the extractor. -/
def denylist : List String := ["Ativo", "AURE3S", "BBAS3S"]

/-- One row of the extracted portfolio. -/
structure HoldingRow where
  ticker : String
  /-- `'Última Cotação'` -/
  ultimaCotacao : ℚ
  /-- `'Posição (R$)'` -/
  posicao : ℚ
  deriving DecidableEq

/-- The holding row contributed by one OCR line: `None` when the pattern
does not match or the captured ticker is denylisted. -/
def lineRow (line : String) : Option HoldingRow :=
  match searchFrom line.data with
  | some (ativo, cot, pos) =>
    let t := String.mk ativo
    if t ∈ denylist then none
    else some ⟨t, clean_value (.str (String.mk cot)), clean_value (.str (String.mk pos))⟩
  | none => none

/-- The loop over OCR lines: one optional row per line, in order. -/
def extractFromLines (ls : List String) : List HoldingRow :=
  ls.filterMap lineRow

/-- Python `text.split('\n')` over char lists. -/
def splitOnNl : List Char → List (List Char)
  | [] => [[]]
  | c :: cs =>
    let r := splitOnNl cs
    if c = '\n' then [] :: r
    else
      match r with
      | [] => [[c]]
      | h :: t => (c :: h) :: t

/-- `process_portfolio_image`, modelled from the OCR text onward: the image
decoding and `pytesseract` call are external and produce the `text` input. -/
def process_portfolio_text (text : String) : List HoldingRow :=
  extractFromLines ((splitOnNl (pyStrip text.data)).map String.mk)

/-! ### `load_recommendations_from_excel` -/

/-- The external reco sheet, as far as the loader inspects it before
accepting it wholesale: its column names. -/
structure RecoSheet where
  columns : List String
  deriving DecidableEq

/-- The expected columns of the `'Recomendações'` sheet. -/
def expected_cols : List String :=
  ["Ticker", "Empresa", "Setor", "Recomendação", "Preço Alvo (R$)"]

/-- The `'Ticker'` list of the hardcoded simulation dataset. -/
def fallback_tickers : List String :=
  ["AURE3", "BBAS3", "BBDC4", "CPLE6", "CXSE3", "ITSA4", "PETR4", "PRIO3",
   "VALE3", "CSNA3", "WEGE3", "SIMH3", "HASH11", "IVVB11"]

/-- The `'Empresa'` list of the hardcoded simulation dataset. -/
def fallback_empresas : List String :=
  ["Auren Energia", "Banco do Brasil", "Bradesco", "Copel", "Caixa Seguridade",
   "Itaúsa", "Petrobras", "Prio", "Vale", "CSN", "WEG", "Simpar",
   "Hashdex Nasdaq Crypto", "iShares S&P 500"]

/-- The `'Setor'` list of the hardcoded simulation dataset, exactly as it
appears in the source. -/
def fallback_setores : List String :=
  ["Utilities Elétricas", "Financeiro", "Financeiro", "Utilities Elétricas",
   "Financeiro", "Petróleo e Gás", "Petróleo e Gás", "Mineração", "Mineração",
   "Bens de Capital", "Consumo Cíclico", "Ativos Digitais", "Internacional (ETF)"]

/-- The `'Recomendação'` list of the hardcoded simulation dataset. -/
def fallback_recomendacoes : List String :=
  ["Compra", "Compra", "Neutro", "Compra", "Compra", "Compra", "Compra",
   "Compra", "Compra", "Venda", "Neutro", "Compra", "N/A", "N/A"]

/-- The `'Preço Alvo (R$)'` list of the hardcoded simulation dataset. -/
def fallback_alvos : List ℚ :=
  [15.00, 30.00, 18.00, 14.00, 16.00, 13.50, 40.00, 60.00, 80.00, 12.00,
   40.00, 12.00, 100.00, 450.00]

/-- The simulation dataset as a column-oriented table. -/
structure SimTable where
  tickers : List String
  empresas : List String
  setores : List String
  recomendacoes : List String
  alvos : List ℚ

/-- `pd.DataFrame(data)` on the fallback dict: pandas raises
`ValueError("All arrays must be of the same length")` unless every column
list has the same length. -/
def buildFallbackTable : Except String SimTable :=
  if fallback_empresas.length = fallback_tickers.length ∧
      fallback_setores.length = fallback_tickers.length ∧
      fallback_recomendacoes.length = fallback_tickers.length ∧
      fallback_alvos.length = fallback_tickers.length then
    .ok ⟨fallback_tickers, fallback_empresas, fallback_setores,
      fallback_recomendacoes, fallback_alvos⟩
  else .error "All arrays must be of the same length"

/-- Outcome of the loader when it returns: either the external sheet taken
wholesale, or the simulation dataset. -/
inductive LoadResult where
  | fromExcel (df : RecoSheet)
  | simulated (t : SimTable)

/-- `load_recommendations_from_excel`.  The input is `none` when
`pd.read_excel` fails (missing sheet, unreadable file) and `some sheet`
when the sheet was read.  A column check failure raises into the same
`except` branch, which then builds the fallback `DataFrame`; an exception
escaping that branch propagates (`.error`). -/
def load_recommendations_from_excel (input : Option RecoSheet) :
    Except String LoadResult :=
  match input with
  | some df =>
    if expected_cols.all (fun c => df.columns.contains c) then
      .ok (.fromExcel df)
    else Except.map .simulated buildFallbackTable
  | none => Except.map .simulated buildFallbackTable

/-! ### The analysis merge (`pd.merge(..., on='Ticker', how='left')` block)

`analysis_df` is built by a left join of the portfolio on the
recommendations, followed by `fillna('Não Classificado')` on `Setor`,
`fillna(0)` on `Preço Alvo (R$)`, and the `Potencial (%)` computation
(`((alvo / cotação) - 1) * 100`, zeroed by `.where(cotação > 0, 0)` and a
final `fillna(0)`).  A pandas left join emits, for each left row in order,
one output row per matching right row (in the right table's order), or a
single NaN-padded row when no right row matches. -/

/-- One row of analyst coverage (a row of `reco_df`). -/
structure RecoRow where
  ticker : String
  empresa : String
  setor : String
  recomendacao : String
  precoAlvo : ℚ
  deriving DecidableEq

/-- One row of `analysis_df` after the fill/compute block.  `recomendacao`
and `empresa` are `none` exactly when the join found no match (pandas NaN). -/
structure AnalysisRow where
  ticker : String
  ultimaCotacao : ℚ
  posicao : ℚ
  setor : String
  empresa : Option String
  recomendacao : Option String
  precoAlvo : ℚ
  potencial : ℚ
  deriving DecidableEq

/-- The `Potencial (%)` column: `((alvo / cotação) - 1) * 100` masked to `0`
wherever `cotação > 0` fails (`.where(... > 0, 0)` plus the final
`fillna(0)`). -/
def potencialOf (alvo cot : ℚ) : ℚ :=
  if 0 < cot then (alvo / cot - 1) * 100 else 0

/-- The analysis row produced for holding `h` joined with matching reco `r`. -/
def matchedRow (h : HoldingRow) (r : RecoRow) : AnalysisRow :=
  ⟨h.ticker, h.ultimaCotacao, h.posicao, r.setor, some r.empresa, some r.recomendacao,
    r.precoAlvo, potencialOf r.precoAlvo h.ultimaCotacao⟩

/-- The analysis row produced for a holding with no matching reco row:
NaN columns, then `Setor` filled with `'Não Classificado'` and
`Preço Alvo (R$)` with `0`. -/
def unmatchedRow (h : HoldingRow) : AnalysisRow :=
  ⟨h.ticker, h.ultimaCotacao, h.posicao, "Não Classificado", none, none, 0,
    potencialOf 0 h.ultimaCotacao⟩

/-- The block of output rows a left join emits for one holding. -/
def rowsFor (reco : List RecoRow) (h : HoldingRow) : List AnalysisRow :=
  let ms := reco.filter (fun r => r.ticker == h.ticker)
  if ms.isEmpty then [unmatchedRow h] else ms.map (matchedRow h)

/-- `analysis_df`: the left join plus the fill/compute block. -/
def mergeLeft (portfolio : List HoldingRow) (reco : List RecoRow) : List AnalysisRow :=
  portfolio.flatMap (rowsFor reco)

/-! ### Sector aggregation and sorting -/

/-- Total portfolio value: `analysis_df['Posição (R$)'].sum()`. -/
def totalValue (df : List AnalysisRow) : ℚ :=
  (df.map AnalysisRow.posicao).sum

/-- Ascending insertion step for strings. -/
def insertStrAsc (a : String) : List String → List String
  | [] => [a]
  | b :: bs => if a < b then a :: b :: bs else b :: insertStrAsc a bs

/-- Ascending insertion sort on strings: pandas `groupby` emits its group
keys in sorted order. -/
def sortStrAsc : List String → List String
  | [] => []
  | a :: as => insertStrAsc a (sortStrAsc as)

/-- The group keys of `groupby('Setor')`: the distinct sectors, sorted. -/
def sectorKeys (df : List AnalysisRow) : List String :=
  sortStrAsc ((df.map AnalysisRow.setor).dedup)

/-- Summed position value of one sector group. -/
def sectorSum (df : List AnalysisRow) (k : String) : ℚ :=
  ((df.filter (fun r => r.setor == k)).map AnalysisRow.posicao).sum

/-- `analysis_df.groupby('Setor')['Posição (R$)'].sum()` as a key-ordered
list of (sector, summed position) pairs. -/
def sectorAllocation (df : List AnalysisRow) : List (String × ℚ) :=
  (sectorKeys df).map (fun k => (k, sectorSum df k))

/-- The `'Percentual'` column of the module-level `sector_allocation` frame:
each sector's summed position divided by the total, times 100. -/
def sectorPercentuals (df : List AnalysisRow) : List ℚ :=
  (sectorAllocation df).map (fun p => p.2 / totalValue df * 100)

/-- Descending insertion step by a rational key. -/
def insertDescBy {α : Type} (key : α → ℚ) (a : α) : List α → List α
  | [] => [a]
  | b :: bs => if key b < key a then a :: b :: bs else b :: insertDescBy key a bs

/-- Descending sort by a rational key (pandas `sort_values(ascending=False)`;
the claims do not depend on how ties are ordered). -/
def sortDescBy {α : Type} (key : α → ℚ) : List α → List α
  | [] => []
  | a :: as => insertDescBy key a (sortDescBy key as)

/-! ### `generate_recommendation_text` -/

/-- `groupby('Setor')['Posição (R$)'].sum().sort_values(ascending=False)`
divided by the total and scaled to percent — the `sector_percent` series of
the narrative generator, ordered descending by allocation. -/
def sectorPercents (df : List AnalysisRow) : List (String × ℚ) :=
  (sortDescBy (fun p => p.2) (sectorAllocation df)).map
    (fun p => (p.1, p.2 / totalValue df * 100))

/-- Concatenate a list of strings. -/
def joinAll (ss : List String) : String := ss.foldr (· ++ ·) ""

/-- The fixed greeting and introduction. -/
def introText : String :=
  "Olá! Tudo bem?\n\nFiz uma análise da sua carteira de investimentos com base nas nossas recomendações mais recentes e na alocação atual. Seguem os principais pontos:\n\n"

/-- The fixed closing call-to-action and signature. -/
def closingText : String :=
  "💡 **Próximos Passos:**\nCom base nesta análise, sugiro agendarmos uma conversa para discutirmos esses pontos e alinharmos a estratégia da sua carteira com seus objetivos e nosso cenário de mercado.\n\nQualquer dúvida, estou à disposição.\n\nAbraço!"

/-- Floor of a rational as an integer (`num.fdiv den`; the denominator is
positive, so this is the mathematical floor). -/
def myFloor (q : ℚ) : Int := Int.fdiv q.num q.den

/-- Round to the nearest integer, ties to even — the rounding used by
Python's fixed-point formatting, applied here to the exact rational. -/
def roundHalfEven (q : ℚ) : Int :=
  let f := myFloor q
  let r := q - f
  if r < 1 / 2 then f
  else if 1 / 2 < r then f + 1
  else if f % 2 = 0 then f else f + 1

/-- Decimal digits of a natural number (fuel-driven so that it evaluates in
the kernel). -/
def natDigitsAux : Nat → Nat → List Char
  | 0, _ => []
  | fuel + 1, n => if n = 0 then [] else natDigitsAux fuel (n / 10) ++ [Char.ofNat (48 + n % 10)]

/-- Decimal representation of a natural number. -/
def natToDigits (n : Nat) : List Char :=
  if n = 0 then ['0'] else natDigitsAux (n + 1) n

/-- Left-pad with zeros to `d` characters. -/
def padZeros (d : Nat) (l : List Char) : List Char :=
  List.replicate (d - l.length) '0' ++ l

/-- Python `f"{x:.df}"` fixed-point formatting of an exact rational. -/
def formatFix (q : ℚ) (d : Nat) : String :=
  let r := roundHalfEven (q * (10 : ℚ) ^ d)
  let m := r.natAbs
  let ip := m / 10 ^ d
  let fp := m % 10 ^ d
  (if r < 0 then "-" else "") ++ String.mk (natToDigits ip) ++
    (if d = 0 then "" else "." ++ String.mk (padZeros d (natToDigits fp)))

/-- One line of the sector-allocation list (one-decimal percentage). -/
def allocLine (p : String × ℚ) : String :=
  "- **" ++ p.1 ++ ":** " ++ formatFix p.2 1 ++ "%\n"

/-- The concentration-risk remark naming sector `s`. -/
def remarkString (s : String) : String :=
  "\nSua carteira apresenta uma concentração um pouco maior no setor de **" ++ s ++
    "**. Podemos avaliar estratégias para diversificar e mitigar riscos, se estiver de acordo com seu perfil.\n"

/-- `compra_df` before sorting: rows whose recommendation is `'Compra'`
(a NaN recommendation never equals `'Compra'`). -/
def compraRows (df : List AnalysisRow) : List AnalysisRow :=
  df.filter (fun r => r.recomendacao == some "Compra")

/-- `compra_df`: the `'Compra'` rows sorted descending by `Potencial (%)`. -/
def compraSorted (df : List AnalysisRow) : List AnalysisRow :=
  sortDescBy AnalysisRow.potencial (compraRows df)

/-- The rows that actually get a printed line in the buy block: those with
strictly positive potencial, in sorted order. -/
def buyRowsShown (df : List AnalysisRow) : List AnalysisRow :=
  (compraSorted df).filter (fun r => decide (0 < r.potencial))

/-- One printed line of the buy block. -/
def buyLine (r : AnalysisRow) : String :=
  "- **" ++ r.ticker ++ " (" ++ r.setor ++
    "):** Mantemos uma visão positiva para o ativo, com um potencial de valorização de **" ++
    formatFix r.potencial 2 ++ "%** em relação ao nosso preço-alvo de R$ " ++
    formatFix r.precoAlvo 2 ++ ".\n"

/-- The buy-opportunities block: header plus lines when `compra_df` is
non-empty, nothing otherwise. -/
def buySection (df : List AnalysisRow) : String :=
  if (compraSorted df).isEmpty then ""
  else "👍 **Pontos Fortes e Oportunidades (Recomendação de Compra):**\n" ++
    joinAll ((buyRowsShown df).map buyLine)

/-- `reavaliar_df`: rows with a `'Neutro'` or `'Venda'` recommendation. -/
def reavRows (df : List AnalysisRow) : List AnalysisRow :=
  df.filter (fun r => r.recomendacao == some "Neutro" || r.recomendacao == some "Venda")

/-- One printed line of the attention block. -/
def reavLine (r : AnalysisRow) : String :=
  "- **" ++ r.ticker ++ " (" ++ r.setor ++ "):** Nossa recomendação atual é **" ++
    r.recomendacao.getD "nan" ++
    "**. Seria interessante conversarmos sobre a possibilidade de realocar essa posição para ativos com maior potencial de crescimento no setor ou em outros setores estratégicos.\n"

/-- The attention block. -/
def reavSection (df : List AnalysisRow) : String :=
  if (reavRows df).isEmpty then ""
  else "⚠️ **Pontos de Atenção (Recomendação Neutra ou Venda):**\n" ++
    joinAll ((reavRows df).map reavLine)

/-- The narrative up to (not including) the concentration remark. -/
def narrativePre (df : List AnalysisRow) : String :=
  introText ++ "📊 **Alocação Setorial:**\n" ++
    joinAll (((sectorPercents df).take 3).map allocLine)

/-- The narrative after the concentration remark. -/
def narrativePost (df : List AnalysisRow) : String :=
  "\n" ++ buySection df ++ "\n" ++ reavSection df ++ "\n" ++ closingText

/-- `generate_recommendation_text`.  Returns `none` exactly when the Python
function raises: on an empty analysis frame `top_sectors.iloc[0]` is an
`IndexError`. -/
def generate_recommendation_text (df : List AnalysisRow) : Option String :=
  match (sectorPercents df).take 3 with
  | [] => none
  | t0 :: _ =>
    some (narrativePre df ++ (if 35 < t0.2 then remarkString t0.1 else "") ++
      narrativePost df)

/-- A concrete analysis table in which sector `"X"` holds 40% of total
value and the remaining sectors 30% each. -/
def dfConc : List AnalysisRow :=
  [⟨"AAAA3", 1, 40, "X", none, none, 0, 0⟩,
   ⟨"BBBB3", 1, 30, "Y", none, none, 0, 0⟩,
   ⟨"CCCC3", 1, 30, "Z", none, none, 0, 0⟩]

/-! ## Theorems -/

theorem insertStrAsc_perm (a : String) (l : List String) :
    List.Perm (insertStrAsc a l) (a :: l) := by
  induction l with
  | nil => exact List.Perm.refl _
  | cons b bs ih =>
    unfold insertStrAsc
    by_cases h : a < b
    · rw [if_pos h]
    · rw [if_neg h]
      exact (ih.cons b).trans (List.Perm.swap a b bs)

theorem sortStrAsc_perm (l : List String) : List.Perm (sortStrAsc l) l := by
  induction l with
  | nil => exact List.Perm.refl _
  | cons a as ih => exact (insertStrAsc_perm a (sortStrAsc as)).trans (ih.cons a)

theorem insertDescBy_perm {α : Type} (key : α → ℚ) (a : α) (l : List α) :
    List.Perm (insertDescBy key a l) (a :: l) := by
  induction l with
  | nil => exact List.Perm.refl _
  | cons b bs ih =>
    unfold insertDescBy
    by_cases h : key b < key a
    · rw [if_pos h]
    · rw [if_neg h]
      exact (ih.cons b).trans (List.Perm.swap a b bs)

theorem sortDescBy_perm {α : Type} (key : α → ℚ) (l : List α) :
    List.Perm (sortDescBy key l) l := by
  induction l with
  | nil => exact List.Perm.refl _
  | cons a as ih => exact (insertDescBy_perm key a (sortDescBy key as)).trans (ih.cons a)

theorem insertDescBy_pairwise {α : Type} (key : α → ℚ) (a : α) {l : List α}
    (h : l.Pairwise (fun x y => key y ≤ key x)) :
    (insertDescBy key a l).Pairwise (fun x y => key y ≤ key x) := by
  induction l with
  | nil => simp [insertDescBy]
  | cons b bs ih =>
    rw [List.pairwise_cons] at h
    obtain ⟨hb, hbs⟩ := h
    unfold insertDescBy
    by_cases hlt : key b < key a
    · rw [if_pos hlt]
      refine List.Pairwise.cons ?_ (List.Pairwise.cons hb hbs)
      intro y hy
      rcases List.mem_cons.mp hy with rfl | hy'
      · exact le_of_lt hlt
      · exact (hb y hy').trans (le_of_lt hlt)
    · rw [if_neg hlt]
      refine List.Pairwise.cons ?_ (ih hbs)
      intro y hy
      have hmem : y ∈ a :: bs := (insertDescBy_perm key a bs).mem_iff.mp hy
      rcases List.mem_cons.mp hmem with rfl | hy'
      · exact le_of_not_lt hlt
      · exact hb y hy'

theorem sortDescBy_pairwise {α : Type} (key : α → ℚ) (l : List α) :
    (sortDescBy key l).Pairwise (fun x y => key y ≤ key x) := by
  induction l with
  | nil => exact List.Pairwise.nil
  | cons a as ih => exact insertDescBy_pairwise key a ih

theorem sortDescBy_head_max {α : Type} (key : α → ℚ) {l : List α} {x : α}
    {xs : List α} (h : sortDescBy key l = x :: xs) :
    ∀ y ∈ l, key y ≤ key x := by
  intro y hy
  have hmem : y ∈ x :: xs := h ▸ ((sortDescBy_perm key l).symm.mem_iff.mp hy)
  rcases List.mem_cons.mp hmem with rfl | hy'
  · exact le_refl _
  · have hp := sortDescBy_pairwise key l
    rw [h, List.pairwise_cons] at hp
    exact hp.1 y hy'

theorem sectorSum_cons (r : AnalysisRow) (df : List AnalysisRow) (k : String) :
    sectorSum (r :: df) k = (if r.setor == k then r.posicao else 0) + sectorSum df k := by
  unfold sectorSum
  rw [List.filter_cons]
  by_cases h : (r.setor == k) = true
  · rw [if_pos h, if_pos h]
    simp
  · rw [if_neg h, if_neg h]
    simp

theorem sum_if_single {keys : List String} (hnd : keys.Nodup) {a : String}
    (ha : a ∈ keys) (p : ℚ) :
    (keys.map (fun k => if a == k then p else 0)).sum = p := by
  induction keys with
  | nil => cases ha
  | cons b bs ih =>
    rw [List.nodup_cons] at hnd
    obtain ⟨hb, hnd'⟩ := hnd
    rcases List.mem_cons.mp ha with rfl | ha'
    · have hzero : (bs.map (fun k => if a == k then p else (0 : ℚ))).sum = 0 := by
        apply List.sum_eq_zero
        intro x hx
        obtain ⟨k, hk, hkx⟩ := List.mem_map.mp hx
        rw [← hkx, if_neg]
        intro hbeq
        exact hb (beq_iff_eq.mp hbeq ▸ hk)
      have h1 : (if (a == a) = true then p else (0 : ℚ)) = p := if_pos (by simp)
      rw [List.map_cons, List.sum_cons, h1, hzero, add_zero]
    · have hne : a ≠ b := fun hab => hb (hab ▸ ha')
      have hba : (a == b) = false := beq_eq_false_iff_ne.mpr hne
      simp only [List.map_cons, List.sum_cons, hba, Bool.false_eq_true, if_false]
      rw [ih hnd' ha', zero_add]

theorem keys_sum (keys : List String) (hnd : keys.Nodup) :
    ∀ df : List AnalysisRow, (∀ r ∈ df, r.setor ∈ keys) →
      (keys.map (fun k => sectorSum df k)).sum = totalValue df := by
  intro df
  induction df with
  | nil =>
    intro _
    have : (keys.map (fun k => sectorSum ([] : List AnalysisRow) k)).sum = 0 := by
      apply List.sum_eq_zero
      intro x hx
      obtain ⟨k, _, hkx⟩ := List.mem_map.mp hx
      rw [← hkx]
      rfl
    rw [this]
    rfl
  | cons r df' ih =>
    intro hcov
    have hcov' : ∀ x ∈ df', x.setor ∈ keys :=
      fun x hx => hcov x (List.mem_cons_of_mem r hx)
    calc (keys.map (fun k => sectorSum (r :: df') k)).sum
        = (keys.map (fun k =>
            (if r.setor == k then r.posicao else 0) + sectorSum df' k)).sum := by
          apply congrArg
          apply List.map_congr_left
          intro k _
          rw [sectorSum_cons]
      _ = (keys.map (fun k => if r.setor == k then r.posicao else 0)).sum +
            (keys.map (fun k => sectorSum df' k)).sum := by
          rw [← List.sum_map_add]
      _ = r.posicao + totalValue df' := by
          rw [sum_if_single hnd (hcov r (List.mem_cons_self r df')) r.posicao, ih hcov']
      _ = totalValue (r :: df') := by
          simp [totalValue]

theorem sectorKeys_nodup (df : List AnalysisRow) : (sectorKeys df).Nodup :=
  ((sortStrAsc_perm _).nodup_iff).mpr (List.nodup_dedup _)

theorem mem_sectorKeys {df : List AnalysisRow} {r : AnalysisRow} (hr : r ∈ df) :
    r.setor ∈ sectorKeys df :=
  ((sortStrAsc_perm _).mem_iff).mpr
    (List.mem_dedup.mpr (List.mem_map_of_mem AnalysisRow.setor hr))

/-- Every merged row inherits its quote/ticker from its holding and carries
the masked potencial formula over its own filled target price; an unmatched
row gets the sentinel sector and a zero target. -/
theorem mem_rowsFor {reco : List RecoRow} {h : HoldingRow} {a : AnalysisRow}
    (ha : a ∈ rowsFor reco h) :
    a.potencial = potencialOf a.precoAlvo a.ultimaCotacao ∧
      a.ultimaCotacao = h.ultimaCotacao ∧ a.ticker = h.ticker ∧
      (a.recomendacao = none → a.setor = "Não Classificado" ∧ a.precoAlvo = 0) := by
  unfold rowsFor at ha
  by_cases hE : (reco.filter (fun r => r.ticker == h.ticker)).isEmpty
  · rw [if_pos hE, List.mem_singleton] at ha
    subst ha
    exact ⟨rfl, rfl, rfl, fun _ => ⟨rfl, rfl⟩⟩
  · rw [if_neg hE] at ha
    obtain ⟨r, _, hr⟩ := List.mem_map.mp ha
    subst hr
    exact ⟨rfl, rfl, rfl, fun hcon => by cases hcon⟩

theorem filter_ticker_nil {rs : List RecoRow} {t : String}
    (h : t ∉ rs.map RecoRow.ticker) :
    rs.filter (fun r => r.ticker == t) = [] := by
  rw [List.filter_eq_nil_iff]
  intro r hr hbeq
  exact h (List.mem_map.mpr ⟨r, hr, by simpa using hbeq⟩)

theorem filter_ticker_len_le_one {rs : List RecoRow}
    (hnd : (rs.map RecoRow.ticker).Nodup) (t : String) :
    (rs.filter (fun r => r.ticker == t)).length ≤ 1 := by
  induction rs with
  | nil => simp
  | cons r rs ih =>
    rw [List.map_cons, List.nodup_cons] at hnd
    obtain ⟨hr, hnd'⟩ := hnd
    by_cases hbeq : (r.ticker == t) = true
    · rw [List.filter_cons, if_pos hbeq]
      have ht : t ∉ rs.map RecoRow.ticker := by
        rw [show t = r.ticker from (beq_iff_eq.mp hbeq).symm]
        exact hr
      rw [filter_ticker_nil ht]
      simp
    · rw [List.filter_cons, if_neg hbeq]
      exact ih hnd'

theorem rowsFor_length {rs : List RecoRow}
    (hnd : (rs.map RecoRow.ticker).Nodup) (h : HoldingRow) :
    (rowsFor rs h).length = 1 := by
  unfold rowsFor
  by_cases hE : (rs.filter (fun r => r.ticker == h.ticker)).isEmpty
  · rw [if_pos hE]; rfl
  · rw [if_neg hE, List.length_map]
    have h1 := filter_ticker_len_le_one hnd h.ticker
    have h0 : (rs.filter (fun r => r.ticker == h.ticker)).length ≠ 0 := by
      simpa [List.isEmpty_iff, List.length_eq_zero] using hE
    omega

/-- Claim C2: in every row of the merged analysis table, `Potencial (%)`
equals `(target_price / last_quote − 1) × 100` when `last_quote > 0`, and is
exactly `0` when `last_quote` is `0`, regardless of the target price. -/
theorem claim_upside_formula (hs : List HoldingRow) (rs : List RecoRow)
    (a : AnalysisRow) (ha : a ∈ mergeLeft hs rs) :
    (0 < a.ultimaCotacao → a.potencial = (a.precoAlvo / a.ultimaCotacao - 1) * 100) ∧
      (a.ultimaCotacao = 0 → a.potencial = 0) := by
  obtain ⟨h, _, hrf⟩ := List.mem_flatMap.mp ha
  obtain ⟨hpot, -, -, -⟩ := mem_rowsFor hrf
  constructor
  · intro hlt
    rw [hpot, potencialOf, if_pos hlt]
  · intro h0
    rw [hpot, potencialOf, if_neg (by rw [h0]; exact lt_irrefl 0)]

/-- Witness for C2 at a concrete merged row: quote 5, target 10 gives an
upside of exactly 100%. -/
theorem claim_upside_formula_w :
    (matchedRow ⟨"PETR4", 5, 100⟩
      ⟨"PETR4", "Petrobras", "Petróleo e Gás", "Compra", 10⟩).potencial = 100 := by
  have hmem : matchedRow ⟨"PETR4", 5, 100⟩
      ⟨"PETR4", "Petrobras", "Petróleo e Gás", "Compra", 10⟩ ∈
      mergeLeft [⟨"PETR4", 5, 100⟩]
        [⟨"PETR4", "Petrobras", "Petróleo e Gás", "Compra", 10⟩] := by
    simp [mergeLeft, rowsFor]
  have h := (claim_upside_formula _ _ _ hmem).1 (by norm_num [matchedRow])
  rw [h]
  norm_num [matchedRow]

/-- Claim C3, counterexample: with a duplicated ticker in the recommendation
table, the left join emits two analysis rows for a single holding row, so
the output row count does not always equal the holding row count. -/
theorem claim_merge_count_cex :
    (mergeLeft [⟨"PETR4", 1, 1⟩]
      [⟨"PETR4", "Petrobras", "Petróleo e Gás", "Compra", 40⟩,
       ⟨"PETR4", "Petrobras", "Petróleo e Gás", "Compra", 42⟩]).length ≠
      ([⟨"PETR4", 1, 1⟩] : List HoldingRow).length := by
  decide

/-- Claim C3 (amended): when the recommendation table's tickers are
pairwise distinct, the merge produces exactly one analysis row per holding
row — the output row count equals the holding row count — and every
analysis row's ticker comes from the holdings, so recommendation-only
tickers contribute no row. -/
theorem claim_merge_count (hs : List HoldingRow) (rs : List RecoRow)
    (hnd : (rs.map RecoRow.ticker).Nodup) :
    (mergeLeft hs rs).length = hs.length ∧
      ∀ a ∈ mergeLeft hs rs, a.ticker ∈ hs.map HoldingRow.ticker := by
  constructor
  · rw [mergeLeft, List.length_flatMap]
    calc (hs.map (List.length ∘ rowsFor rs)).sum
        = (hs.map (fun _ => 1)).sum := by
          apply congrArg
          apply List.map_congr_left
          intro h _
          exact rowsFor_length hnd h
      _ = hs.length := by simp
  · intro a ha
    obtain ⟨h, hh, hrf⟩ := List.mem_flatMap.mp ha
    exact List.mem_map.mpr ⟨h, hh, ((mem_rowsFor hrf).2.2.1).symm⟩

/-- Witness for C3 at a concrete two-holding portfolio (one matched, one
unmatched ticker): the merge yields exactly two rows. -/
theorem claim_merge_count_w :
    (mergeLeft [⟨"PETR4", 5, 100⟩, ⟨"XXXX4", 2, 10⟩]
      [⟨"PETR4", "Petrobras", "Petróleo e Gás", "Compra", 40⟩]).length = 2 := by
  have h := (claim_merge_count [⟨"PETR4", 5, 100⟩, ⟨"XXXX4", 2, 10⟩]
    [⟨"PETR4", "Petrobras", "Petróleo e Gás", "Compra", 40⟩] (by decide)).1
  exact h

/-- Claim C10: a holding whose ticker has no match in the recommendation
table gets sector `'Não Classificado'`, target price `0`, and — whenever its
quote is strictly positive — an upside of exactly `−100`. -/
theorem claim_unmatched_defaults (hs : List HoldingRow) (rs : List RecoRow)
    (a : AnalysisRow) (ha : a ∈ mergeLeft hs rs)
    (hnot : a.ticker ∉ rs.map RecoRow.ticker) :
    a.setor = "Não Classificado" ∧ a.precoAlvo = 0 ∧
      (0 < a.ultimaCotacao → a.potencial = -100) := by
  obtain ⟨h, _, hrf⟩ := List.mem_flatMap.mp ha
  have hfil : rs.filter (fun r => r.ticker == h.ticker) = [] := by
    apply filter_ticker_nil
    rw [← (mem_rowsFor hrf).2.2.1]
    exact hnot
  simp only [rowsFor, hfil] at hrf
  simp only [List.isEmpty_nil, if_true, List.mem_singleton] at hrf
  subst hrf
  refine ⟨rfl, rfl, fun hlt => ?_⟩
  have hlt' : 0 < h.ultimaCotacao := hlt
  show potencialOf 0 h.ultimaCotacao = -100
  rw [potencialOf, if_pos hlt', zero_div]
  norm_num

/-- Witness for C10 at a concrete unmatched holding with positive quote. -/
theorem claim_unmatched_defaults_w :
    (unmatchedRow ⟨"XXXX4", 2, 10⟩).setor = "Não Classificado" ∧
      (unmatchedRow ⟨"XXXX4", 2, 10⟩).precoAlvo = 0 ∧
      (unmatchedRow ⟨"XXXX4", 2, 10⟩).potencial = -100 := by
  have hmem : unmatchedRow ⟨"XXXX4", 2, 10⟩ ∈
      mergeLeft [⟨"XXXX4", 2, 10⟩]
        [⟨"PETR4", "Petrobras", "Petróleo e Gás", "Compra", 40⟩] := by
    simp [mergeLeft, rowsFor]
  obtain ⟨h1, h2, h3⟩ := claim_unmatched_defaults _ _ _ hmem (by decide)
  exact ⟨h1, h2, h3 (by norm_num [unmatchedRow])⟩

/-- Claim C6: whenever the total position value is strictly positive, the
sector-allocation percentages (per-sector position sum divided by the total,
times 100) sum to exactly 100 in exact rational arithmetic. -/
theorem claim_sector_percent_sum (df : List AnalysisRow)
    (htot : 0 < totalValue df) :
    (sectorPercentuals df).sum = 100 := by
  have hsum := keys_sum (sectorKeys df) (sectorKeys_nodup df) df
    (fun r hr => mem_sectorKeys hr)
  have hT : totalValue df ≠ 0 := ne_of_gt htot
  unfold sectorPercentuals sectorAllocation
  rw [List.map_map]
  have heq : ((fun p : String × ℚ => p.2 / totalValue df * 100) ∘
      fun k => (k, sectorSum df k)) =
      fun k => sectorSum df k * (100 / totalValue df) := by
    funext k
    simp only [Function.comp]
    ring
  rw [heq, List.sum_map_mul_right, hsum, mul_comm]
  exact div_mul_cancel₀ 100 hT

/-- Witness for C6: a two-sector portfolio (40 + 60) has percentages
summing to 100. -/
theorem claim_sector_percent_sum_w :
    0 < totalValue
        [⟨"AAAA3", 1, 40, "X", none, none, 0, 0⟩,
         ⟨"BBBB3", 1, 60, "Y", none, none, 0, 0⟩] ∧
      (sectorPercentuals
        [⟨"AAAA3", 1, 40, "X", none, none, 0, 0⟩,
         ⟨"BBBB3", 1, 60, "Y", none, none, 0, 0⟩]).sum = 100 :=
  ⟨by norm_num [totalValue], claim_sector_percent_sum _ (by norm_num [totalValue])⟩

/-- Claim C5, counterexample: the empty analysis table satisfies the
row-wise invariants vacuously, yet the generator fails on it
(`top_sectors.iloc[0]` raises `IndexError`), modelled as `none`. -/
theorem claim_narrative_empty_cex :
    generate_recommendation_text [] = none := rfl

/-- Claim C5 (amended): for every non-empty analysis table the narrative
generator terminates normally and returns a string. -/
theorem claim_narrative_returns (df : List AnalysisRow) (hne : df ≠ []) :
    ∃ s, generate_recommendation_text df = some s := by
  obtain ⟨r, df', rfl⟩ := List.exists_cons_of_ne_nil hne
  have hkey : r.setor ∈ sectorKeys (r :: df') :=
    mem_sectorKeys (List.mem_cons_self r df')
  have halloc : sectorAllocation (r :: df') ≠ [] := by
    unfold sectorAllocation
    intro hmapnil
    rw [List.map_eq_nil_iff] at hmapnil
    rw [hmapnil] at hkey
    cases hkey
  have hsort : sortDescBy (fun p => p.2) (sectorAllocation (r :: df')) ≠ [] := by
    intro hnil
    have hperm := sortDescBy_perm (fun p : String × ℚ => p.2)
      (sectorAllocation (r :: df'))
    rw [hnil] at hperm
    exact halloc hperm.nil_eq.symm
  have hsp : sectorPercents (r :: df') ≠ [] := by
    unfold sectorPercents
    rw [ne_eq, List.map_eq_nil_iff]
    exact hsort
  obtain ⟨p, ps, hp⟩ := List.exists_cons_of_ne_nil hsp
  unfold generate_recommendation_text
  rw [hp]
  exact ⟨_, rfl⟩

/-- Witness for C5 at a concrete one-row table. -/
theorem claim_narrative_returns_w :
    ∃ s, generate_recommendation_text
      [⟨"AAAA3", 1, 40, "X", none, none, 0, 0⟩] = some s :=
  claim_narrative_returns _ (by simp)

/-- Claim C4: the monetary parser maps `'R$ 1.275,34'` to `1275.34`, the
empty string to `0.0`, the number `42` to `42.0`, and any string whose
cleaned form does not parse as a float to `0.0` (never raising). -/
theorem claim_clean_value :
    clean_value (.str "R$ 1.275,34") = 1275.34 ∧
      clean_value (.str "") = 0 ∧
      clean_value (.num 42) = 42 ∧
      ∀ s : String, pyFloat (cleanedForm s) = none → clean_value (.str s) = 0 := by
  refine ⟨?_, ?_, rfl, ?_⟩
  · simp [clean_value, cleanedForm, pyReplace, replaceAux, dropPat, pyStrip, dropWs,
      pyFloat, takeDigits, digitsToNat, parseExp, scalePow10]
    norm_num
  · simp [clean_value, cleanedForm, pyReplace, replaceAux, dropPat, pyStrip, dropWs,
      pyFloat, takeDigits, digitsToNat, parseExp, scalePow10]
  · intro s h
    simp only [clean_value]
    rw [h]

/-- Witness for C4's unparseable-string branch at the concrete input
`"abc"`. -/
theorem claim_clean_value_w :
    pyFloat (cleanedForm "abc") = none ∧ clean_value (.str "abc") = 0 :=
  ⟨by decide, claim_clean_value.2.2.2 "abc" (by decide)⟩

/-- Claim C1 (code bug): on every fallback-triggering input (unreadable
sheet, or a sheet missing expected columns), the loader does not return the
hardcoded simulation table: building the fallback `DataFrame` raises
`ValueError`, because the `'Setor'` column list has 13 entries while the
other four columns have 14.  The intended fallback tickers do include
`'PETR4'` and `'VALE3'`. -/
theorem claim_load_fallback_crashes :
    load_recommendations_from_excel none =
        .error "All arrays must be of the same length" ∧
      load_recommendations_from_excel (some ⟨["Ticker", "Empresa"]⟩) =
        .error "All arrays must be of the same length" ∧
      "PETR4" ∈ fallback_tickers ∧ "VALE3" ∈ fallback_tickers ∧
      fallback_tickers.length = 14 ∧ fallback_setores.length = 13 :=
  ⟨rfl, rfl, by decide, by decide, by decide, by decide⟩

/-- Claim C7: an OCR line whose captured ticker is denylisted contributes
no holding row, and removing such a line leaves the extracted rows of all
other lines unchanged. -/
theorem claim_denylist (pre post : List String) (l : String)
    (t cot pos : List Char)
    (hm : searchFrom l.data = some (t, cot, pos))
    (hd : String.mk t ∈ denylist) :
    lineRow l = none ∧
      extractFromLines (pre ++ l :: post) = extractFromLines (pre ++ post) := by
  have hnone : lineRow l = none := by
    unfold lineRow
    rw [hm]
    exact if_pos hd
  refine ⟨hnone, ?_⟩
  unfold extractFromLines
  rw [List.filterMap_append, List.filterMap_append,
    List.filterMap_cons_none hnone]

/-- Witness for C7: the denylisted line `AURE3S …` is dropped while the
well-formed `PETR4 …` line before it still extracts. -/
theorem claim_denylist_w :
    lineRow "AURE3S a R$ 1,00 R$ 2,00" = none ∧
      extractFromLines
          (["PETR4 a R$ 1,00 R$ 2,00"] ++ "AURE3S a R$ 1,00 R$ 2,00" :: []) =
        extractFromLines (["PETR4 a R$ 1,00 R$ 2,00"] ++ []) :=
  claim_denylist ["PETR4 a R$ 1,00 R$ 2,00"] [] "AURE3S a R$ 1,00 R$ 2,00"
    "AURE3S".data "R$ 1,00".data "R$ 2,00".data (by decide) (by decide)

/-- Claim C8: the concentration-risk remark appears in the narrative,
naming the sector at the head of the descending allocation order — a sector
of maximal allocation — exactly when that sector's percentage share of the
total strictly exceeds 35. -/
theorem claim_concentration_remark (df : List AnalysisRow) (s : String) (pct : ℚ)
    (hhead : (sectorPercents df).head? = some (s, pct)) :
    ∃ v, (s, v) ∈ sectorAllocation df ∧
      (∀ p ∈ sectorAllocation df, p.2 ≤ v) ∧
      pct = v / totalValue df * 100 ∧
      generate_recommendation_text df =
        some (narrativePre df ++ (if 35 < pct then remarkString s else "") ++
          narrativePost df) := by
  cases hsort : sortDescBy (fun p : String × ℚ => p.2) (sectorAllocation df) with
  | nil =>
    exfalso
    have hnil : sectorPercents df = [] := by
      unfold sectorPercents
      rw [hsort]
      rfl
    rw [hnil] at hhead
    cases hhead
  | cons x xs =>
    have hsp : sectorPercents df = (x.1, x.2 / totalValue df * 100) ::
        xs.map (fun p => (p.1, p.2 / totalValue df * 100)) := by
      unfold sectorPercents
      rw [hsort, List.map_cons]
    have hx : (x.1, x.2 / totalValue df * 100) = (s, pct) := by
      rw [hsp] at hhead
      simpa using hhead
    have hx1 : x.1 = s := congrArg Prod.fst hx
    have hx2 : x.2 / totalValue df * 100 = pct := congrArg Prod.snd hx
    refine ⟨x.2, ?_, ?_, hx2.symm, ?_⟩
    · have hxmem : x ∈ sectorAllocation df :=
        (sortDescBy_perm _ _).mem_iff.mp
          (by rw [hsort]; exact List.mem_cons_self x xs)
      have hpair : (s, x.2) = x := by
        rw [← hx1]
      rw [hpair]
      exact hxmem
    · intro p hp
      exact sortDescBy_head_max _ hsort p hp
    · unfold generate_recommendation_text
      rw [hsp, hx]
      rfl

/-- Witness for C8: with sector `"X"` at 40% (the largest), the remark
naming `"X"` is present in the narrative. -/
theorem claim_concentration_remark_w :
    (sectorPercents dfConc).head? = some ("X", 40) ∧
      generate_recommendation_text dfConc =
        some (narrativePre dfConc ++ remarkString "X" ++ narrativePost dfConc) := by
  have hkeys : sectorKeys dfConc = ["X", "Y", "Z"] := by
    have h1 : ("Y" : String) < "Z" := by
      simp [String.lt_iff_toList_lt]
      decide
    have h2 : ("X" : String) < "Y" := by
      simp [String.lt_iff_toList_lt]
      decide
    have hd : (dfConc.map AnalysisRow.setor).dedup = ["X", "Y", "Z"] := by decide
    unfold sectorKeys
    rw [hd]
    simp [sortStrAsc, insertStrAsc, h1, h2]
  have halloc : sectorAllocation dfConc = [("X", 40), ("Y", 30), ("Z", 30)] := by
    have hfX : (dfConc.filter (fun r => r.setor == "X")).map AnalysisRow.posicao
        = [40] := by decide
    have hfY : (dfConc.filter (fun r => r.setor == "Y")).map AnalysisRow.posicao
        = [30] := by decide
    have hfZ : (dfConc.filter (fun r => r.setor == "Z")).map AnalysisRow.posicao
        = [30] := by decide
    unfold sectorAllocation sectorSum
    rw [hkeys]
    simp [hfX, hfY, hfZ]
  have hsortd : sortDescBy (fun p : String × ℚ => p.2)
      [("X", (40 : ℚ)), ("Y", 30), ("Z", 30)] =
      [("X", 40), ("Z", 30), ("Y", 30)] := by
    norm_num [sortDescBy, insertDescBy]
  have hhead : (sectorPercents dfConc).head? = some ("X", 40) := by
    unfold sectorPercents
    rw [halloc, hsortd]
    norm_num [totalValue, dfConc]
  obtain ⟨v, -, -, -, hgen⟩ := claim_concentration_remark dfConc "X" 40 hhead
  rw [if_pos (by norm_num : (35 : ℚ) < 40)] at hgen
  exact ⟨hhead, hgen⟩

/-- Claim C9: the buy block is present iff some analysis row carries the
`'Compra'` label; its printed rows are exactly the `'Compra'` rows with
strictly positive upside, listed in descending order of upside. -/
theorem claim_buy_block (df : List AnalysisRow) :
    (buySection df = "" ↔ ∀ r ∈ df, r.recomendacao ≠ some "Compra") ∧
      (∀ r ∈ buyRowsShown df,
        r ∈ df ∧ r.recomendacao = some "Compra" ∧ 0 < r.potencial) ∧
      (∀ r ∈ df, r.recomendacao = some "Compra" → 0 < r.potencial →
        r ∈ buyRowsShown df) ∧
      (buyRowsShown df).Pairwise (fun a b => b.potencial ≤ a.potencial) := by
  have hiff : (compraSorted df).isEmpty = true ↔ compraRows df = [] := by
    unfold compraSorted
    rw [List.isEmpty_iff]
    constructor
    · intro h
      have hperm := sortDescBy_perm AnalysisRow.potencial (compraRows df)
      rw [h] at hperm
      exact hperm.nil_eq.symm
    · intro h
      rw [h]
      rfl
  refine ⟨⟨?_, ?_⟩, ?_, ?_, ?_⟩
  · intro hempty r hr hc
    by_cases hE : (compraSorted df).isEmpty = true
    · have hnil := hiff.mp hE
      have hmem : r ∈ compraRows df := List.mem_filter.mpr ⟨hr, by simp [hc]⟩
      rw [hnil] at hmem
      cases hmem
    · unfold buySection at hempty
      rw [if_neg hE] at hempty
      have hlen := congrArg String.length hempty
      rw [String.length_append] at hlen
      have hzero : ("" : String).length = 0 := rfl
      rw [hzero] at hlen
      have hpos : 0 <
          ("👍 **Pontos Fortes e Oportunidades (Recomendação de Compra):**\n" :
            String).length := by decide
      omega
  · intro hnone
    have hnil : compraRows df = [] := by
      unfold compraRows
      rw [List.filter_eq_nil_iff]
      intro r hr hbeq
      exact hnone r hr (by simpa using hbeq)
    unfold buySection
    rw [if_pos (hiff.mpr hnil)]
  · intro r hr
    have hr1 := List.mem_filter.mp hr
    have hr2 : r ∈ compraRows df :=
      (sortDescBy_perm AnalysisRow.potencial (compraRows df)).mem_iff.mp hr1.1
    have hr3 := List.mem_filter.mp hr2
    exact ⟨hr3.1, by simpa using hr3.2, by simpa using hr1.2⟩
  · intro r hr hc hp
    apply List.mem_filter.mpr
    refine ⟨?_, by simpa using hp⟩
    exact (sortDescBy_perm AnalysisRow.potencial (compraRows df)).mem_iff.mpr
      (List.mem_filter.mpr ⟨hr, by simp [hc]⟩)
  · exact List.Pairwise.sublist (List.filter_sublist _) (sortDescBy_pairwise _ _)

/-- Witness for C9 at the concrete no-`'Compra'` table: the buy block is
omitted entirely. -/
theorem claim_buy_block_w :
    buySection ([⟨"AAAA3", 1, 40, "X", none, some "Venda", 10, 900⟩] :
      List AnalysisRow) = "" :=
  (claim_buy_block [⟨"AAAA3", 1, 40, "X", none, some "Venda", 10, 900⟩]).1.mpr
    (by simp)

example : clean_value (.str "R$ 1.275,34") = 1275.34 := by
  simp [clean_value, cleanedForm, pyReplace, replaceAux, dropPat, pyStrip, dropWs, pyFloat,
    takeDigits, digitsToNat, parseExp, scalePow10]
  norm_num

example : clean_value (.str "") = 0 := by
  simp [clean_value, cleanedForm, pyReplace, replaceAux, dropPat, pyStrip, dropWs, pyFloat,
    takeDigits, digitsToNat, parseExp, scalePow10]

example : clean_value (.num 42) = 42 := rfl

example : clean_value (.str "garbage") = 0 := by
  simp [clean_value, cleanedForm, pyReplace, replaceAux, dropPat, pyStrip, dropWs, pyFloat,
    takeDigits, digitsToNat, parseExp, scalePow10]

example : clean_value (.str "R$ 32,50") = 32.5 := by
  simp [clean_value, cleanedForm, pyReplace, replaceAux, dropPat, pyStrip, dropWs, pyFloat,
    takeDigits, digitsToNat, parseExp, scalePow10]
  norm_num

end Upside
